import Mathlib

/-!
Verification development for the Evidence.dev AWS Athena connector
(`src/index.js`).  The JavaScript module is shallowly embedded: every
function of the source file becomes a Lean definition over explicit data
types mirroring the AWS SDK response shapes, remote calls become function
parameters returning `Except` values, the unbounded `while`/`do-while`
loops become fuel-indexed recursions returning `none` when the fuel is
exhausted, and JavaScript objects used as string-keyed records become
association lists with JavaScript assignment/lookup semantics.
-/

namespace AthenaConnector

/-- Evidence type tags from `@evidence-dev/db-commons` (`EvidenceType`);
in the library each tag is the corresponding lowercase string, e.g.
`EvidenceType.DATE = "date"`. -/
inductive EvidenceType
  | BOOLEAN
  | NUMBER
  | DATE
  | STRING
deriving DecidableEq, Repr

/-- Type-fidelity tags from `@evidence-dev/db-commons` (`TypeFidelity`). -/
inductive TypeFidelity
  | PRECISE
  | INFERRED
deriving DecidableEq, Repr

/-- One entry of `ResultSetMetadata.ColumnInfo` in an Athena
`GetQueryResults` response: a column name plus its native Athena type tag. -/
structure AthenaColumn where
  Name : String
  «Type» : String
deriving DecidableEq, Repr

/-- The record produced by `mapAthenaTypeToEvidenceType` and collected in
the output's `columnTypes` array. -/
structure MappedColumn where
  name : String
  evidenceType : EvidenceType
  typeFidelity : TypeFidelity
deriving DecidableEq, Repr

/-- `mapAthenaTypeToEvidenceType` from `src/index.js`: translate one
column's native Athena type tag into an Evidence type, carrying the
column's name and PRECISE fidelity.  The `switch` on `column.«Type»` is
rendered as a `match` on the same string literals, with the same
`default` branch mapping to STRING. -/
def mapAthenaTypeToEvidenceType (column : AthenaColumn) : MappedColumn :=
  let type :=
    match column.«Type» with
    | "boolean" => EvidenceType.BOOLEAN
    | "tinyint" | "smallint" | "int" | "integer"
    | "bigint" | "double" | "float" | "real" => EvidenceType.NUMBER
    | "date" | "timestamp" => EvidenceType.DATE
    | "string" | "char" | "varchar" => EvidenceType.STRING
    | "array" => EvidenceType.STRING
    | "map" => EvidenceType.STRING
    | "struct" => EvidenceType.STRING
    | "decimal" => EvidenceType.STRING
    | "binary" => EvidenceType.STRING
    | _ => EvidenceType.STRING
  { name := column.Name, evidenceType := type, typeFidelity := TypeFidelity.PRECISE }

/-- The native type tags that appear explicitly in the mapping table. -/
def mappedTags : List String :=
  ["boolean", "tinyint", "smallint", "int", "integer", "bigint", "double",
   "float", "real", "date", "timestamp", "string", "char", "varchar",
   "array", "map", "struct", "decimal", "binary"]

/-- One cell of an Athena result row (`data.VarCharValue`); the connector
treats every raw value as a string. -/
structure AthenaDatum where
  VarCharValue : String
deriving DecidableEq, Repr

/-- One raw result row: `row.Data` is the positional list of cells. -/
structure AthenaRow where
  Data : List AthenaDatum
deriving DecidableEq, Repr

/-- `ResultSet.ResultSetMetadata`: the ordered column descriptions. -/
structure ResultSetMetadata where
  ColumnInfo : List AthenaColumn
deriving DecidableEq, Repr

/-- `response.ResultSet` of one `GetQueryResults` page. -/
structure AthenaResultSet where
  Rows : List AthenaRow
  ResultSetMetadata : ResultSetMetadata
deriving DecidableEq, Repr

/-- One `GetQueryResults` response page: a result set plus the optional
continuation token (`response.NextToken`). -/
structure GetQueryResultsResponse where
  ResultSet : AthenaResultSet
  NextToken : Option String
deriving DecidableEq, Repr

/-- A JavaScript `Date` value as far as this connector observes it:
either a calendar day or the Invalid Date produced from an unparsable
argument. -/
inductive JSDate
  | valid (year month day : Nat)
  | invalid
deriving DecidableEq, Repr

/-- A value stored in a mapped row object: the raw string from the
result set, or a `Date` written back by the runner's post-processing. -/
inductive Value
  | vstr (s : String)
  | vdate (d : JSDate)
deriving DecidableEq, Repr

/-- A JavaScript object used as a string-keyed record, embedded as an
insertion-ordered association list with unique keys. -/
abbrev Obj := List (String × Value)

/-- JavaScript property assignment `o[k] = v`: overwrite an existing key
in place (keeping its insertion position), else append the new key. -/
def objSet : Obj → String → Value → Obj
  | [], k, v => [(k, v)]
  | p :: rest, k, v => if p.1 = k then (k, v) :: rest else p :: objSet rest k v

/-- JavaScript property read `o[k]`: `none` models `undefined`. -/
def objGet (o : Obj) (k : String) : Option Value :=
  (o.find? (fun p => p.1 == k)).map Prod.snd

/-- The body of `row.Data.forEach((data, index) => ...)` inside
`mapQueryResults`, visiting the row's cells left to right with their
index.  `columns[index].Name` reads a member of a possibly-undefined
array element, so the embedding returns `none` (the thrown TypeError)
when the index is out of range of the column list. -/
def mapRowAux (columns : List AthenaColumn) :
    List AthenaDatum → Nat → Obj → Option Obj
  | [], _, mappedRow => some mappedRow
  | data :: rest, index, mappedRow =>
    match columns.get? index with
    | none => none
    | some c =>
        mapRowAux columns rest (index + 1)
          (objSet mappedRow c.Name (Value.vstr data.VarCharValue))

/-- One iteration of `rows.map(row => ...)` in `mapQueryResults`: build
the row's object, mapping each column name (by position) to the row's
positional value as a string. -/
def mapRow (columns : List AthenaColumn) (row : AthenaRow) : Option Obj :=
  mapRowAux columns row.Data 0 []

/-- `rows.map(...)` over all data rows; the TypeError thrown by any row
aborts the whole mapping. -/
def mapRows (columns : List AthenaColumn) : List AthenaRow → Option (List Obj)
  | [] => some []
  | row :: rest =>
    match mapRow columns row, mapRows columns rest with
    | some o, some os => some (o :: os)
    | _, _ => none

/-- The raw accumulated result returned by `getQueryResults`: all pages'
rows (the header row still included) plus the captured metadata. -/
structure QueryResults where
  rows : List AthenaRow
  resultSetMetadata : ResultSetMetadata
deriving DecidableEq, Repr

/-- The output contract returned to Evidence (`output` in the source). -/
structure MappedOutput where
  rows : List Obj
  columnTypes : List MappedColumn
  expectedRowCount : Nat
deriving DecidableEq, Repr

/-- `mapQueryResults` from `src/index.js`: drop the header row
(`rows.slice(1)`), build one object per remaining row via `mapRow`, map
the captured columns through `mapAthenaTypeToEvidenceType`, and report
`mappedRows.length` as the expected row count. -/
def mapQueryResults (queryResults : QueryResults) : Option MappedOutput :=
  let columns := queryResults.resultSetMetadata.ColumnInfo
  let rows := queryResults.rows.drop 1
  match mapRows columns rows with
  | none => none
  | some mappedRows =>
      some { rows := mappedRows,
             columnTypes := columns.map (fun column => mapAthenaTypeToEvidenceType column),
             expectedRowCount := mappedRows.length }

/-- A thrown/rejected JavaScript error, reduced to its message. -/
structure JsError where
  message : String
deriving DecidableEq, Repr

/-- `waitForQueryCompletion` from `src/index.js`.  The remote
`GetQueryExecutionCommand` round trip becomes `send`, indexed by the
ordinal of the status check; the unbounded `while (true)` loop becomes a
fuel-indexed recursion where `none` means the loop is still running when
the fuel runs out.  The third accumulator counts the milliseconds spent
in `setTimeout(resolve, 5000)` sleeps, so a returned pair carries the
outcome and the total time slept before it. -/
def waitForQueryCompletion (queryExecutionId : String)
    (send : Nat → Except JsError String) :
    Nat → Nat → Nat → Option (Except JsError Unit × Nat)
  | 0, _, _ => none
  | fuel + 1, check, slept =>
    match send check with
    | .error e => some (.error e, slept)
    | .ok status =>
      if status = "SUCCEEDED" then
        some (.ok (), slept)
      else if status = "FAILED" ∨ status = "CANCELLED" then
        some (.error ⟨"Query execution failed or was cancelled: " ++ queryExecutionId⟩,
          slept)
      else
        waitForQueryCompletion queryExecutionId send fuel (check + 1) (slept + 5000)

/-- The `do ... while (nextToken)` loop of `getQueryResults`.  The remote
`GetQueryResultsCommand` round trip becomes `send`, applied to the
current `NextToken` parameter (`none` on the first iteration, exactly as
`params` initially lacks the field).  `resultSetMetadata.getD` renders
`if (!resultSetMetadata) resultSetMetadata = response.ResultSet.ResultSetMetadata`:
the metadata is captured on the first page and kept thereafter. -/
def getQueryResultsLoop
    (send : Option String → Except JsError GetQueryResultsResponse) :
    Option String → List AthenaRow → Option ResultSetMetadata → Nat →
    Option (Except JsError QueryResults)
  | _, _, _, 0 => none
  | nextToken, allRows, resultSetMetadata, fuel + 1 =>
    match send nextToken with
    | .error e => some (.error e)
    | .ok response =>
      let meta := resultSetMetadata.getD response.ResultSet.ResultSetMetadata
      let rows := allRows ++ response.ResultSet.Rows
      match response.NextToken with
      | none => some (.ok { rows := rows, resultSetMetadata := meta })
      | some t => getQueryResultsLoop send (some t) rows (some meta) fuel

/-- `getQueryResults` from `src/index.js`: run the pagination loop from
an absent token with no accumulated rows and no captured metadata. -/
def getQueryResults
    (send : Option String → Except JsError GetQueryResultsResponse)
    (fuel : Nat) : Option (Except JsError QueryResults) :=
  getQueryResultsLoop send none [] none fuel

/-- `send` realizes this finite chain of pages: each page is the
response to the previous page's continuation token (starting from the
given initial token), and only the final page carries no token. -/
def isPageChain (send : Option String → Except JsError GetQueryResultsResponse) :
    Option String → List GetQueryResultsResponse → Prop
  | _, [] => False
  | tok, [p] => send tok = .ok p ∧ p.NextToken = none
  | tok, p :: q :: rest =>
    send tok = .ok p ∧ ∃ t, p.NextToken = some t ∧ isPageChain send (some t) (q :: rest)

/-- Helper for the model of the JavaScript `Date` constructor: split a
character list at every dash. -/
def splitOnDash : List Char → List (List Char)
  | [] => [[]]
  | c :: rest =>
    let r := splitOnDash rest
    if c = '-' then [] :: r
    else
      match r with
      | [] => [[c]]
      | g :: gs => (c :: g) :: gs

/-- Read a decimal digit string as a natural number. -/
def digitsToNat (cs : List Char) : Nat :=
  cs.foldl (fun n c => n * 10 + (c.toNat - '0'.toNat)) 0

/-- The JavaScript `Date` constructor on an ISO `YYYY-MM-DD` calendar
string, the date format this connector's columns carry; any other string
yields the Invalid Date.  (The real constructor accepts further formats
the connector never relies on; they are outside this model.) -/
def parseISODate (s : String) : JSDate :=
  match splitOnDash s.data with
  | [y, m, d] =>
    if y.length = 4 ∧ m.length = 2 ∧ d.length = 2 ∧
        y.all Char.isDigit ∧ m.all Char.isDigit ∧ d.all Char.isDigit then
      let mn := digitsToNat m
      let dn := digitsToNat d
      if 1 ≤ mn ∧ mn ≤ 12 ∧ 1 ≤ dn ∧ dn ≤ 31 then
        JSDate.valid (digitsToNat y) mn dn
      else JSDate.invalid
    else JSDate.invalid
  | _ => JSDate.invalid

/-- `new Date(row[column.name])` in the runner's post-processing: a
string is parsed, an existing `Date` is copied, and `undefined` (a key
the row does not have) gives the Invalid Date. -/
def jsDateOf : Option Value → JSDate
  | some (Value.vstr s) => parseISODate s
  | some (Value.vdate d) => d
  | none => JSDate.invalid

/-- The nested `for (const row of output.rows) / for (const column of
output.columnTypes)` post-processing loop body in `getRunner`, applied
to one row: for each column whose Evidence type is DATE (the library
constant `EvidenceType.DATE` is the string `'date'` compared by
`column.evidenceType === 'date'`), overwrite `row[column.name]` with
`new Date(row[column.name])`. -/
def applyDateConversion : List MappedColumn → Obj → Obj
  | [], row => row
  | column :: rest, row =>
    applyDateConversion rest
      (if column.evidenceType = EvidenceType.DATE then
        objSet row column.name (Value.vdate (jsDateOf (objGet row column.name)))
      else row)

/-- The whole post-processing step of `getRunner`: convert the DATE
columns of every output row in place. -/
def postProcessOutput (output : MappedOutput) : MappedOutput :=
  { output with rows := output.rows.map (fun row => applyDateConversion output.columnTypes row) }

/-- The connector options object (`ConnectorOptions` in the source's
JSDoc): the four recognized configuration fields. -/
structure ConnectorOptions where
  database : String
  catalog : String
  outputBucket : String
  testTableName : String
deriving DecidableEq, Repr

/-- The `params` object built by the runner for
`StartQueryExecutionCommand`. -/
structure StartParams where
  QueryString : String
  Database : String
  Catalog : String
  OutputLocation : String
deriving DecidableEq, Repr

/-- The `params` construction at the top of the runner body. -/
def buildStartParams (options : ConnectorOptions) (queryText : String) : StartParams :=
  { QueryString := queryText,
    Database := options.database,
    Catalog := options.catalog,
    OutputLocation := "s3://" ++ options.outputBucket }

/-- The `StartQueryExecutionCommand` response. -/
structure StartResponse where
  QueryExecutionId : String
deriving DecidableEq, Repr

/-- The body of the `try` block in the runner returned by `getRunner`:
submit the query, poll to completion, paginate the results, map them,
and post-process DATE columns.  The three remote operations are the
`send*` parameters and one fuel bounds both unbounded loops; `none`
means some loop was still running when the fuel ran out, and a carried
`.error` is an exception propagating toward the runner's `catch`.  A
failed column lookup inside `mapQueryResults` is the thrown TypeError. -/
def runnerTryBlock (sendStart : StartParams → Except JsError StartResponse)
    (sendStatus : Nat → Except JsError String)
    (sendResults : Option String → Except JsError GetQueryResultsResponse)
    (options : ConnectorOptions) (queryText : String) (fuel : Nat) :
    Option (Except JsError MappedOutput) :=
  match sendStart (buildStartParams options queryText) with
  | .error e => some (.error e)
  | .ok response =>
    match waitForQueryCompletion response.QueryExecutionId sendStatus fuel 0 0 with
    | none => none
    | some (.error e, _) => some (.error e)
    | some (.ok _, _) =>
      match getQueryResults sendResults fuel with
      | none => none
      | some (.error e) => some (.error e)
      | some (.ok queryResults) =>
        match mapQueryResults queryResults with
        | none =>
            some (.error ⟨"TypeError: Cannot read properties of undefined (reading Name)"⟩)
        | some output => some (.ok (postProcessOutput output))

/-- The async function returned by `getRunner`, with its `try`/`catch`:
any error reaching the boundary is logged with `console.error` and
swallowed, the function then falling through to an implicit
`return undefined` — rendered `some none`.  `some (some output)` is a
normal return and the outer `none` means the invocation has not yet
returned within the fuel bound. -/
def getRunner (sendStart : StartParams → Except JsError StartResponse)
    (sendStatus : Nat → Except JsError String)
    (sendResults : Option String → Except JsError GetQueryResultsResponse)
    (options : ConnectorOptions) (queryText : String) (fuel : Nat) :
    Option (Option MappedOutput) :=
  match runnerTryBlock sendStart sendStatus sendResults options queryText fuel with
  | none => none
  | some (.error _) => some none
  | some (.ok output) => some (some output)

/-- `testConnection` from `src/index.js`: the entire body (a probe query
against `options.testTableName`) is commented out and the function
returns `true` unconditionally, touching no remote service. -/
def testConnection (_options : ConnectorOptions) : Bool :=
  true

/-- The long-lived Athena client constructed at module load: bound to a
fixed region and to credentials resolved from the named profile. -/
structure AthenaClient where
  region : String
  profile : String
deriving DecidableEq, Repr

/-- The module-load prologue of `src/index.js`: read
`process.env.AUX_PROFILE` (`none` when the variable is unset), throw
before constructing anything when `!profile` holds — in JavaScript that
is both a missing variable and the empty string — and otherwise
construct the single client for region `us-east-1` with `fromIni`
credentials for that profile. -/
def initAthenaModule (auxProfile : Option String) : Except JsError AthenaClient :=
  match auxProfile with
  | none => .error ⟨"Environment variable AUX_PROFILE is not set."⟩
  | some profile =>
    if profile = "" then .error ⟨"Environment variable AUX_PROFILE is not set."⟩
    else .ok { region := "us-east-1", profile := profile }

/-- First page of the two-page pagination stub from the spec's testable
property 4: three rows and continuation token `"t2"`. -/
def stubPage1 : GetQueryResultsResponse :=
  { ResultSet :=
      { Rows := [⟨[⟨"h"⟩]⟩, ⟨[⟨"a"⟩]⟩, ⟨[⟨"b"⟩]⟩],
        ResultSetMetadata := ⟨[⟨"c1", "varchar"⟩]⟩ },
    NextToken := some "t2" }

/-- Second page of the pagination stub: two rows, no token, and
deliberately different metadata so that metadata capture from the first
page is observable. -/
def stubPage2 : GetQueryResultsResponse :=
  { ResultSet :=
      { Rows := [⟨[⟨"c"⟩]⟩, ⟨[⟨"d"⟩]⟩],
        ResultSetMetadata := ⟨[⟨"other", "int"⟩]⟩ },
    NextToken := none }

/-- The paginated fetch stub: the initial request gets page 1, the
request carrying its token gets page 2. -/
def stubSend : Option String → Except JsError GetQueryResultsResponse
  | none => .ok stubPage1
  | some _ => .ok stubPage2

/-- Semantic helper: perform a sequence of JavaScript property
assignments in order. -/
def objSets (o : Obj) : List (String × Value) → Obj
  | [] => o
  | (k, v) :: rest => objSets (objSet o k v) rest

/-- Semantic helper: the (column name, string value) assignments a row's
`forEach` performs, in positional order. -/
def rowPairs (columns : List AthenaColumn) (ds : List AthenaDatum) :
    List (String × Value) :=
  (columns.zip ds).map (fun p => (p.1.Name, Value.vstr p.2.VarCharValue))

end AthenaConnector

namespace AthenaConnector

/-- C1: for every column whose native type tag is in the mapping table,
`mapAthenaTypeToEvidenceType` returns exactly the mapped Evidence type
(boolean ↦ BOOLEAN; the eight numeric tags ↦ NUMBER; date/timestamp ↦
DATE; the string-like and complex tags ↦ STRING); every tag outside the
table falls back to STRING; and in all cases the result carries PRECISE
fidelity and the column's name, so the function is total over all tags. -/
theorem c1_mapAthenaTypeToEvidenceType_table (column : AthenaColumn) :
    (mapAthenaTypeToEvidenceType column).name = column.Name ∧
    (mapAthenaTypeToEvidenceType column).typeFidelity = TypeFidelity.PRECISE ∧
    (column.«Type» = "boolean" →
      (mapAthenaTypeToEvidenceType column).evidenceType = EvidenceType.BOOLEAN) ∧
    (column.«Type» = "tinyint" ∨ column.«Type» = "smallint" ∨ column.«Type» = "int" ∨
     column.«Type» = "integer" ∨ column.«Type» = "bigint" ∨ column.«Type» = "double" ∨
     column.«Type» = "float" ∨ column.«Type» = "real" →
      (mapAthenaTypeToEvidenceType column).evidenceType = EvidenceType.NUMBER) ∧
    (column.«Type» = "date" ∨ column.«Type» = "timestamp" →
      (mapAthenaTypeToEvidenceType column).evidenceType = EvidenceType.DATE) ∧
    (column.«Type» = "string" ∨ column.«Type» = "char" ∨ column.«Type» = "varchar" ∨
     column.«Type» = "array" ∨ column.«Type» = "map" ∨ column.«Type» = "struct" ∨
     column.«Type» = "decimal" ∨ column.«Type» = "binary" →
      (mapAthenaTypeToEvidenceType column).evidenceType = EvidenceType.STRING) ∧
    (column.«Type» ∉ mappedTags →
      (mapAthenaTypeToEvidenceType column).evidenceType = EvidenceType.STRING) := by
  obtain ⟨name, ty⟩ := column
  refine ⟨rfl, rfl, ?_, ?_, ?_, ?_, ?_⟩
  · rintro rfl; rfl
  · rintro (rfl | rfl | rfl | rfl | rfl | rfl | rfl | rfl) <;> rfl
  · rintro (rfl | rfl) <;> rfl
  · rintro (rfl | rfl | rfl | rfl | rfl | rfl | rfl | rfl) <;> rfl
  · intro hnot
    simp only [mappedTags, List.mem_cons, List.not_mem_nil, or_false] at hnot
    push_neg at hnot
    obtain ⟨h1, h2, h3, h4, h5, h6, h7, h8, h9, h10, h11, h12, h13, h14,
      h15, h16, h17, h18, h19⟩ := hnot
    simp only [mapAthenaTypeToEvidenceType]

/-- Witness for C1: concrete evaluations — a mapped tag (`boolean`), a
numeric tag (`bigint`), a date tag, and a tag outside the table (`uuid`). -/
theorem c1_witness :
    (mapAthenaTypeToEvidenceType ⟨"flag", "boolean"⟩).evidenceType = EvidenceType.BOOLEAN ∧
    (mapAthenaTypeToEvidenceType ⟨"n", "bigint"⟩).evidenceType = EvidenceType.NUMBER ∧
    (mapAthenaTypeToEvidenceType ⟨"d", "timestamp"⟩).evidenceType = EvidenceType.DATE ∧
    (mapAthenaTypeToEvidenceType ⟨"u", "uuid"⟩).evidenceType = EvidenceType.STRING ∧
    (mapAthenaTypeToEvidenceType ⟨"u", "uuid"⟩).name = "u" ∧
    (mapAthenaTypeToEvidenceType ⟨"u", "uuid"⟩).typeFidelity = TypeFidelity.PRECISE := by
  refine ⟨(c1_mapAthenaTypeToEvidenceType_table ⟨"flag", "boolean"⟩).2.2.1 rfl,
    (c1_mapAthenaTypeToEvidenceType_table ⟨"n", "bigint"⟩).2.2.2.1 (by simp),
    (c1_mapAthenaTypeToEvidenceType_table ⟨"d", "timestamp"⟩).2.2.2.2.1 (by simp),
    (c1_mapAthenaTypeToEvidenceType_table ⟨"u", "uuid"⟩).2.2.2.2.2.2 (by decide),
    (c1_mapAthenaTypeToEvidenceType_table ⟨"u", "uuid"⟩).1,
    (c1_mapAthenaTypeToEvidenceType_table ⟨"u", "uuid"⟩).2.1⟩

/-- Reading back the key just assigned yields the assigned value. -/
theorem objGet_objSet_self (o : Obj) (k : String) (v : Value) :
    objGet (objSet o k v) k = some v := by
  induction o with
  | nil => simp [objSet, objGet]
  | cons p rest ih =>
    by_cases h : p.1 = k
    · simp [objSet, objGet, h]
    · simpa [objSet, objGet, h] using ih

/-- An assignment leaves every other key unchanged. -/
theorem objGet_objSet_other (o : Obj) (k k' : String) (v : Value) (h : k' ≠ k) :
    objGet (objSet o k v) k' = objGet o k' := by
  have hne : ¬k = k' := Ne.symm h
  induction o with
  | nil => simp [objSet, objGet, hne]
  | cons p rest ih =>
    rw [show objSet (p :: rest) k v =
          if p.1 = k then (k, v) :: rest else p :: objSet rest k v from rfl]
    by_cases hp : p.1 = k
    · rw [if_pos hp]
      simp [objGet, hne, hp]
    · rw [if_neg hp]
      by_cases hp' : p.1 = k'
      · simp [objGet, hp']
      · have hfp : (p.1 == k') = false := by simp [hp']
        simp only [objGet, List.find?, hfp]
        exact ih

/-- After a sequence of assignments, a read returns the value of the
last assignment to that key, or falls back to the initial object. -/
theorem objGet_objSets (ps : List (String × Value)) (o : Obj) (k : String) :
    objGet (objSets o ps) k =
      match ps.reverse.find? (fun p => p.1 == k) with
      | some p => some p.2
      | none => objGet o k := by
  induction ps generalizing o with
  | nil => simp [objSets]
  | cons q rest ih =>
    obtain ⟨k₀, v₀⟩ := q
    rw [show objSets o ((k₀, v₀) :: rest) = objSets (objSet o k₀ v₀) rest from rfl, ih]
    rw [List.reverse_cons, List.find?_append]
    cases hfind : rest.reverse.find? (fun p => p.1 == k) with
    | some p => simp [Option.or]
    | none =>
      by_cases hk : k₀ = k
      · subst hk
        simp [Option.or, objGet_objSet_self]
      · simp [Option.or, hk, objGet_objSet_other o k₀ k v₀ (Ne.symm hk)]

/-- When the row has at most as many cells as there are columns, the
`forEach` succeeds and performs exactly the positional assignments. -/
theorem mapRowAux_eq_objSets (columns : List AthenaColumn) (ds : List AthenaDatum)
    (index : Nat) (acc : Obj) (h : index + ds.length ≤ columns.length) :
    mapRowAux columns ds index acc =
      some (objSets acc (rowPairs (columns.drop index) ds)) := by
  induction ds generalizing index acc with
  | nil => simp [mapRowAux, rowPairs, objSets]
  | cons d rest ih =>
    have hlt : index < columns.length := by
      simp only [List.length_cons] at h; omega
    have hget : columns.get? index = some columns[index] := by
      simp [List.getElem?_eq_getElem hlt]
    have hdrop : columns.drop index = columns[index] :: columns.drop (index + 1) :=
      List.drop_eq_getElem_cons hlt
    simp only [mapRowAux, hget]
    rw [ih (index + 1) _ (by simp only [List.length_cons] at h; omega)]
    rw [hdrop]
    simp [rowPairs, objSets, List.zip]

/-- A row strictly longer than the column list makes the `forEach` throw
(read of `columns[index].Name` at an out-of-range index). -/
theorem mapRowAux_none_of_long (columns : List AthenaColumn) (ds : List AthenaDatum)
    (index : Nat) (acc : Obj) (h : columns.length < index + ds.length)
    (hne : ds ≠ []) :
    mapRowAux columns ds index acc = none := by
  induction ds generalizing index acc with
  | nil => exact absurd rfl hne
  | cons d rest ih =>
    by_cases hlt : index < columns.length
    · have hget : columns.get? index = some columns[index] := by
        simp [List.getElem?_eq_getElem hlt]
      simp only [mapRowAux, hget]
      rcases rest with _ | ⟨d₂, rest₂⟩
      · simp only [List.length_cons, List.length_nil] at h
        omega
      · exact ih (index + 1)
          (objSet acc columns[index].Name (Value.vstr d.VarCharValue))
          (by simp only [List.length_cons] at h ⊢; omega) (by simp)
    · have hget : columns.get? index = none := by
        rw [List.get?_eq_getElem?]
        exact List.getElem?_eq_none (by omega)
      simp only [mapRowAux, hget]

/-- All rows short enough: the row mapping succeeds row by row. -/
theorem mapRows_some (columns : List AthenaColumn) (rs : List AthenaRow)
    (h : ∀ r ∈ rs, r.Data.length ≤ columns.length) :
    ∃ os, mapRows columns rs = some os ∧ os.length = rs.length := by
  induction rs with
  | nil => exact ⟨[], rfl, rfl⟩
  | cons r rest ih =>
    obtain ⟨os, hos, hlen⟩ := ih (fun r hr => h r (List.mem_cons_of_mem _ hr))
    obtain ⟨o, ho⟩ : ∃ o, mapRow columns r = some o :=
      ⟨_, mapRowAux_eq_objSets columns r.Data 0 []
        (by simpa using h r (List.mem_cons_self r rest))⟩
    exact ⟨o :: os, by simp [mapRows, ho, hos], by simp [hlen]⟩

/-- One failing row aborts the whole row mapping. -/
theorem mapRows_none_of_mem (columns : List AthenaColumn) (rs : List AthenaRow)
    (r : AthenaRow) (hr : r ∈ rs) (hfail : mapRow columns r = none) :
    mapRows columns rs = none := by
  induction rs with
  | nil => cases hr
  | cons a rest ih =>
    rcases List.mem_cons.mp hr with rfl | hmem
    · cases hrest : mapRows columns rest <;> simp [mapRows, hfail, hrest]
    · cases ha : mapRow columns a <;> simp [mapRows, ha, ih hmem]

/-- C2: for a raw result set of one header row followed by N data rows
(each fitting the column list, as the data model's positional invariant
provides), `mapQueryResults` drops exactly the first row: the output's
rows are the mapped data rows, there are exactly N of them, and
`expectedRowCount` equals N. -/
theorem c2_mapQueryResults_drops_header (header : AthenaRow)
    (dataRows : List AthenaRow) (meta : ResultSetMetadata)
    (hwf : ∀ r ∈ dataRows, r.Data.length ≤ meta.ColumnInfo.length) :
    ∃ output, mapQueryResults ⟨header :: dataRows, meta⟩ = some output ∧
      mapRows meta.ColumnInfo dataRows = some output.rows ∧
      output.rows.length = dataRows.length ∧
      output.expectedRowCount = dataRows.length := by
  obtain ⟨os, hos, hlen⟩ := mapRows_some meta.ColumnInfo dataRows hwf
  refine ⟨{ rows := os,
            columnTypes := meta.ColumnInfo.map (fun c => mapAthenaTypeToEvidenceType c),
            expectedRowCount := os.length }, ?_, ?_, ?_, ?_⟩
  · simp [mapQueryResults, hos]
  · simp [hos]
  · simpa using hlen
  · simpa using hlen

/-- Witness for C2 at a concrete result set: header plus two one-cell
data rows over a single column. -/
theorem c2_witness :
    ∃ output,
      mapQueryResults ⟨[⟨[⟨"c1"⟩]⟩, ⟨[⟨"1"⟩]⟩, ⟨[⟨"2"⟩]⟩], ⟨[⟨"c1", "int"⟩]⟩⟩ =
        some output ∧
      output.rows.length = 2 ∧ output.expectedRowCount = 2 := by
  obtain ⟨output, h1, _, h3, h4⟩ :=
    c2_mapQueryResults_drops_header ⟨[⟨"c1"⟩]⟩ [⟨[⟨"1"⟩]⟩, ⟨[⟨"2"⟩]⟩]
      ⟨[⟨"c1", "int"⟩]⟩ (by decide)
  exact ⟨output, h1, h3, h4⟩

/-- C10: the formatter is only total under the precondition that every
data row has at most as many positional values as there are columns —
any longer row makes the unguarded `columns[index].Name` lookup throw
and `mapQueryResults` fails instead of producing an output; and within a
row, a read of any key returns the value of the last positional
assignment to it, so when two columns share a name the later positional
value overwrites the earlier one. -/
theorem c10_mapQueryResults_partiality :
    (∀ (queryResults : QueryResults) (r : AthenaRow),
        r ∈ queryResults.rows.drop 1 →
        queryResults.resultSetMetadata.ColumnInfo.length < r.Data.length →
        mapQueryResults queryResults = none) ∧
    (∀ (columns : List AthenaColumn) (row : AthenaRow) (o : Obj),
        mapRow columns row = some o →
        ∀ k, objGet o k =
          ((rowPairs columns row.Data).reverse.find? (fun p => p.1 == k)).map
            Prod.snd) := by
  constructor
  · intro qres r hr hlong
    have hne : r.Data ≠ [] := by
      intro hD; rw [hD] at hlong; simp at hlong
    have hrow : mapRow qres.resultSetMetadata.ColumnInfo r = none :=
      mapRowAux_none_of_long _ _ 0 _ (by simpa using hlong) hne
    have hrows := mapRows_none_of_mem qres.resultSetMetadata.ColumnInfo _ r hr hrow
    rw [List.drop_one] at hrows
    simp [mapQueryResults, hrows]
  · intro columns row o ho k
    have hlen : row.Data.length ≤ columns.length := by
      by_contra hlong
      push_neg at hlong
      have hne : row.Data ≠ [] := by
        intro hD; rw [hD] at hlong; simp at hlong
      rw [mapRow,
        mapRowAux_none_of_long columns row.Data 0 [] (by simpa using hlong) hne] at ho
      cases ho
    have hchar : mapRowAux columns row.Data 0 [] =
        some (objSets [] (rowPairs columns row.Data)) := by
      simpa using mapRowAux_eq_objSets columns row.Data 0 [] (by simpa using hlen)
    rw [mapRow, hchar] at ho
    injection ho with ho
    subst ho
    rw [objGet_objSets]
    cases hfind : (rowPairs columns row.Data).reverse.find? (fun p => p.1 == k) <;>
      simp [objGet, hfind]

/-- Witness for C10: a row longer than the single-column metadata makes
the formatter fail, and with two same-named columns the second cell's
value wins. -/
theorem c10_witness :
    mapQueryResults ⟨[⟨[⟨"h"⟩]⟩, ⟨[⟨"a"⟩, ⟨"b"⟩]⟩], ⟨[⟨"c1", "varchar"⟩]⟩⟩ = none ∧
    (mapRow [⟨"k", "varchar"⟩, ⟨"k", "varchar"⟩] ⟨[⟨"a"⟩, ⟨"b"⟩]⟩ =
        some [("k", Value.vstr "b")] ∧
      objGet [("k", Value.vstr "b")] "k" = some (Value.vstr "b")) := by
  refine ⟨c10_mapQueryResults_partiality.1 _ ⟨[⟨"a"⟩, ⟨"b"⟩]⟩ (by decide) (by decide),
    by decide, ?_⟩
  rw [c10_mapQueryResults_partiality.2 [⟨"k", "varchar"⟩, ⟨"k", "varchar"⟩]
    ⟨[⟨"a"⟩, ⟨"b"⟩]⟩ [("k", Value.vstr "b")] (by decide) "k"]
  decide

/-- Running the pagination loop against a finite page chain accumulates
the pages' rows in page order onto the accumulator and keeps the
already-captured metadata, capturing the first page's when none is
captured yet. -/
theorem getQueryResultsLoop_chain
    (send : Option String → Except JsError GetQueryResultsResponse)
    (pages : List GetQueryResultsResponse) :
    ∀ (p : GetQueryResultsResponse) (tok : Option String) (acc : List AthenaRow)
      (meta : Option ResultSetMetadata) (fuel : Nat),
      isPageChain send tok (p :: pages) → (p :: pages).length ≤ fuel →
      getQueryResultsLoop send tok acc meta fuel =
        some (.ok { rows := acc ++ ((p :: pages).map (fun q => q.ResultSet.Rows)).flatten,
                    resultSetMetadata := meta.getD p.ResultSet.ResultSetMetadata }) := by
  induction pages with
  | nil =>
    intro p tok acc meta fuel hchain hfuel
    obtain ⟨hsend, htok⟩ := hchain
    cases fuel with
    | zero => simp at hfuel
    | succ f => simp [getQueryResultsLoop, hsend, htok]
  | cons q rest ih =>
    intro p tok acc meta fuel hchain hfuel
    obtain ⟨hsend, t, htok, hrest⟩ := hchain
    cases fuel with
    | zero => simp at hfuel
    | succ f =>
      have hstep := ih q (some t) (acc ++ p.ResultSet.Rows)
        (some (meta.getD p.ResultSet.ResultSetMetadata)) f hrest
        (by simp only [List.length_cons] at hfuel ⊢; omega)
      simp [getQueryResultsLoop, hsend, htok, hstep, List.append_assoc]

/-- C4: under a fetch realizing any finite chain of pages, the paginator
appends every page's rows, in page order, into one accumulated sequence
— the result's rows are exactly the concatenation of the pages' row
lists — and the loop terminates once a page carries no continuation
token. -/
theorem c4_getQueryResults_pagination
    (send : Option String → Except JsError GetQueryResultsResponse)
    (p : GetQueryResultsResponse) (pages : List GetQueryResultsResponse) (fuel : Nat)
    (hchain : isPageChain send none (p :: pages))
    (hfuel : (p :: pages).length ≤ fuel) :
    getQueryResults send fuel =
      some (.ok { rows := ((p :: pages).map (fun q => q.ResultSet.Rows)).flatten,
                  resultSetMetadata := p.ResultSet.ResultSetMetadata }) := by
  have h := getQueryResultsLoop_chain send pages p none [] none fuel hchain hfuel
  simpa [getQueryResults] using h

/-- Witness for C4: the two-page stub (3 rows plus token `"t2"`, then
2 rows plus no token) accumulates 5 rows and terminates. -/
theorem c4_witness :
    ∃ res, getQueryResults stubSend 2 = some (.ok res) ∧ res.rows.length = 5 := by
  refine ⟨_, c4_getQueryResults_pagination stubSend stubPage1 [stubPage2] 2 ?_ (by decide),
    by decide⟩
  exact ⟨rfl, "t2", rfl, rfl, rfl⟩

/-- A successful formatter output's `columnTypes` is exactly the raw
result's captured `ColumnInfo` mapped, in order. -/
theorem mapQueryResults_columnTypes (queryResults : QueryResults)
    (output : MappedOutput) (h : mapQueryResults queryResults = some output) :
    output.columnTypes =
      queryResults.resultSetMetadata.ColumnInfo.map
        (fun column => mapAthenaTypeToEvidenceType column) := by
  simp only [mapQueryResults] at h
  cases hmr : mapRows queryResults.resultSetMetadata.ColumnInfo
      (queryResults.rows.drop 1) with
  | none => rw [hmr] at h; cases h
  | some os =>
    rw [hmr] at h
    injection h with h
    subst h
    rfl

/-- C5: under a fetch realizing a finite page chain, the accumulated
result carries the first page's metadata — whatever later pages carry —
and any formatter output computed from it has `columnTypes` equal to the
first page's `ColumnInfo` mapped in order, its names matching the
`ColumnInfo` names position by position. -/
theorem c5_columnTypes_from_first_page
    (send : Option String → Except JsError GetQueryResultsResponse)
    (p : GetQueryResultsResponse) (pages : List GetQueryResultsResponse) (fuel : Nat)
    (hchain : isPageChain send none (p :: pages))
    (hfuel : (p :: pages).length ≤ fuel) :
    ∃ res, getQueryResults send fuel = some (.ok res) ∧
      res.resultSetMetadata = p.ResultSet.ResultSetMetadata ∧
      ∀ output, mapQueryResults res = some output →
        output.columnTypes =
          p.ResultSet.ResultSetMetadata.ColumnInfo.map
            (fun column => mapAthenaTypeToEvidenceType column) ∧
        output.columnTypes.map MappedColumn.name =
          p.ResultSet.ResultSetMetadata.ColumnInfo.map AthenaColumn.Name := by
  have h := getQueryResultsLoop_chain send pages p none [] none fuel hchain hfuel
  refine ⟨_, h, rfl, ?_⟩
  intro output hout
  have hct := mapQueryResults_columnTypes _ _ hout
  constructor
  · exact hct
  · rw [hct, List.map_map]
    rfl

/-- Witness for C5: on the two-page stub, whose second page carries
different metadata, the captured metadata and the column types both come
from page 1 only. -/
theorem c5_witness :
    ∃ res, getQueryResults stubSend 2 = some (.ok res) ∧
      res.resultSetMetadata = stubPage1.ResultSet.ResultSetMetadata ∧
      ∃ output, mapQueryResults res = some output ∧
        output.columnTypes =
          stubPage1.ResultSet.ResultSetMetadata.ColumnInfo.map
            (fun column => mapAthenaTypeToEvidenceType column) := by
  obtain ⟨res, h1, h2, h3⟩ := c5_columnTypes_from_first_page stubSend stubPage1
    [stubPage2] 2 ⟨rfl, "t2", rfl, rfl, rfl⟩ (by decide)
  refine ⟨res, h1, h2, ?_⟩
  have hcomp : getQueryResults stubSend 2 =
      some (.ok (⟨[⟨[⟨"h"⟩]⟩, ⟨[⟨"a"⟩]⟩, ⟨[⟨"b"⟩]⟩, ⟨[⟨"c"⟩]⟩, ⟨[⟨"d"⟩]⟩],
        ⟨[⟨"c1", "varchar"⟩]⟩⟩ : QueryResults)) := by rfl
  rw [h1] at hcomp
  have hval : res = ⟨[⟨[⟨"h"⟩]⟩, ⟨[⟨"a"⟩]⟩, ⟨[⟨"b"⟩]⟩, ⟨[⟨"c"⟩]⟩, ⟨[⟨"d"⟩]⟩],
      ⟨[⟨"c1", "varchar"⟩]⟩⟩ := by
    simpa using hcomp
  subst hval
  exact ⟨{ rows := [[("c1", Value.vstr "a")], [("c1", Value.vstr "b")],
             [("c1", Value.vstr "c")], [("c1", Value.vstr "d")]],
           columnTypes := [⟨"c1", EvidenceType.STRING, TypeFidelity.PRECISE⟩],
           expectedRowCount := 4 }, by decide, (h3 _ (by decide)).1⟩

/-- C3: on each status check the poller returns normally at once on
SUCCEEDED; raises at once, on FAILED or CANCELLED, an execution-failure
error whose message carries the execution identifier; on any other
status (QUEUED, RUNNING, ...) sleeps the fixed 5000 ms delay and checks
again; and against a service reporting RUNNING forever it never returns,
whatever the fuel — the loop has no iteration bound or overall timeout. -/
theorem c3_waitForQueryCompletion_behavior (queryExecutionId : String)
    (send : Nat → Except JsError String) (fuel check slept : Nat) :
    (send check = .ok "SUCCEEDED" →
      waitForQueryCompletion queryExecutionId send (fuel + 1) check slept =
        some (.ok (), slept)) ∧
    (send check = .ok "FAILED" ∨ send check = .ok "CANCELLED" →
      waitForQueryCompletion queryExecutionId send (fuel + 1) check slept =
        some (.error ⟨"Query execution failed or was cancelled: " ++ queryExecutionId⟩,
          slept)) ∧
    (∀ status, send check = .ok status →
      status ≠ "SUCCEEDED" → status ≠ "FAILED" → status ≠ "CANCELLED" →
      waitForQueryCompletion queryExecutionId send (fuel + 1) check slept =
        waitForQueryCompletion queryExecutionId send fuel (check + 1) (slept + 5000)) ∧
    ((∀ n, send n = .ok "RUNNING") →
      ∀ f c s, waitForQueryCompletion queryExecutionId send f c s = none) := by
  refine ⟨?_, ?_, ?_, ?_⟩
  · intro h
    simp [waitForQueryCompletion, h]
  · rintro (h | h) <;> simp [waitForQueryCompletion, h]
  · intro status h h1 h2 h3
    simp [waitForQueryCompletion, h, h1, h2, h3]
  · intro hrun f
    induction f with
    | zero => intro c s; simp [waitForQueryCompletion]
    | succ n ih =>
      intro c s
      simp [waitForQueryCompletion, hrun, ih]

/-- Witness for C3: immediate success, an immediate failure carrying the
identifier, and three RUNNING checks exhausting fuel without a result. -/
theorem c3_witness :
    waitForQueryCompletion "q-1" (fun _ => .ok "SUCCEEDED") 1 0 0 =
      some (.ok (), 0) ∧
    waitForQueryCompletion "q-1" (fun _ => .ok "FAILED") 1 0 0 =
      some (.error ⟨"Query execution failed or was cancelled: q-1"⟩, 0) ∧
    waitForQueryCompletion "q-1" (fun _ => .ok "RUNNING") 3 0 0 = none := by
  refine ⟨(c3_waitForQueryCompletion_behavior "q-1" _ 0 0 0).1 rfl, ?_,
    (c3_waitForQueryCompletion_behavior "q-1" _ 0 0 0).2.2.2 (fun n => rfl) 3 0 0⟩
  have h := (c3_waitForQueryCompletion_behavior "q-1" (fun _ => .ok "FAILED") 0 0 0).2.1
    (Or.inl rfl)
  rw [h]
  rfl

/-- The date-conversion loop leaves keys no column is named after
untouched. -/
theorem applyDateConversion_get_of_not_mem (columnTypes : List MappedColumn)
    (row : Obj) (k : String) (hk : k ∉ columnTypes.map MappedColumn.name) :
    objGet (applyDateConversion columnTypes row) k = objGet row k := by
  induction columnTypes generalizing row with
  | nil => rfl
  | cons column rest ih =>
    have hk1 : column.name ≠ k := by
      intro hh; exact hk (by simp [hh])
    have hk2 : k ∉ rest.map MappedColumn.name := by
      intro hh; exact hk (by simp [hh])
    rw [show applyDateConversion (column :: rest) row =
          applyDateConversion rest
            (if column.evidenceType = EvidenceType.DATE then
              objSet row column.name (Value.vdate (jsDateOf (objGet row column.name)))
            else row) from rfl]
    by_cases hd : column.evidenceType = EvidenceType.DATE
    · rw [if_pos hd, ih _ hk2, objGet_objSet_other _ _ _ _ (Ne.symm hk1)]
    · rw [if_neg hd, ih _ hk2]

/-- C6: after the runner's post-processing of a row, every column whose
mapped type is DATE has its string value replaced in place by the parsed
date value, every column of any other type keeps its original value, and
the string "2024-01-15" parses to January 15, 2024.  (Column names are
assumed pairwise distinct, as result-set columns are.) -/
theorem c6_runner_date_postprocessing (columnTypes : List MappedColumn) (row : Obj)
    (column : MappedColumn) (hmem : column ∈ columnTypes)
    (hnodup : (columnTypes.map MappedColumn.name).Nodup) :
    (column.evidenceType = EvidenceType.DATE →
      ∀ s, objGet row column.name = some (Value.vstr s) →
        objGet (applyDateConversion columnTypes row) column.name =
          some (Value.vdate (parseISODate s))) ∧
    (column.evidenceType ≠ EvidenceType.DATE →
      objGet (applyDateConversion columnTypes row) column.name =
        objGet row column.name) ∧
    parseISODate "2024-01-15" = JSDate.valid 2024 1 15 := by
  have hmain : ∀ (cts : List MappedColumn), column ∈ cts →
      (cts.map MappedColumn.name).Nodup → ∀ (r : Obj),
      (column.evidenceType = EvidenceType.DATE →
        ∀ s, objGet r column.name = some (Value.vstr s) →
          objGet (applyDateConversion cts r) column.name =
            some (Value.vdate (parseISODate s))) ∧
      (column.evidenceType ≠ EvidenceType.DATE →
        objGet (applyDateConversion cts r) column.name = objGet r column.name) := by
    intro cts
    induction cts with
    | nil => intro hm; cases hm
    | cons c rest ih =>
      intro hm hnd r
      rw [List.map_cons, List.nodup_cons] at hnd
      obtain ⟨hnotin, hndrest⟩ := hnd
      rw [show applyDateConversion (c :: rest) r =
            applyDateConversion rest
              (if c.evidenceType = EvidenceType.DATE then
                objSet r c.name (Value.vdate (jsDateOf (objGet r c.name)))
              else r) from rfl]
      rcases List.mem_cons.mp hm with rfl | hmem'
      · constructor
        · intro hdate s hget
          rw [if_pos hdate,
            applyDateConversion_get_of_not_mem rest _ _ hnotin,
            objGet_objSet_self, hget]
          rfl
        · intro hnd'
          rw [if_neg hnd']
          exact applyDateConversion_get_of_not_mem rest r _ hnotin
      · have hcname : c.name ≠ column.name := by
          intro hh
          exact hnotin (hh ▸ List.mem_map.mpr ⟨column, hmem', rfl⟩)
        by_cases hd : c.evidenceType = EvidenceType.DATE
        · rw [if_pos hd]
          have hpres : objGet
              (objSet r c.name (Value.vdate (jsDateOf (objGet r c.name))))
              column.name = objGet r column.name :=
            objGet_objSet_other _ _ _ _ (Ne.symm hcname)
          obtain ⟨ih1, ih2⟩ := ih hmem' hndrest
            (objSet r c.name (Value.vdate (jsDateOf (objGet r c.name))))
          constructor
          · intro hdate s hget
            exact ih1 hdate s (hpres.trans hget)
          · intro hnd'
            exact (ih2 hnd').trans hpres
        · rw [if_neg hd]
          exact ih hmem' hndrest r
  obtain ⟨h1, h2⟩ := hmain columnTypes hmem hnodup row
  exact ⟨h1, h2, by decide⟩

/-- Witness for C6: a DATE column holding "2024-01-15" becomes the date
January 15, 2024, while a STRING column's value stays the raw string. -/
theorem c6_witness :
    objGet (applyDateConversion
        [⟨"day", EvidenceType.DATE, TypeFidelity.PRECISE⟩,
         ⟨"note", EvidenceType.STRING, TypeFidelity.PRECISE⟩]
        [("day", Value.vstr "2024-01-15"), ("note", Value.vstr "x")]) "day" =
      some (Value.vdate (JSDate.valid 2024 1 15)) ∧
    objGet (applyDateConversion
        [⟨"day", EvidenceType.DATE, TypeFidelity.PRECISE⟩,
         ⟨"note", EvidenceType.STRING, TypeFidelity.PRECISE⟩]
        [("day", Value.vstr "2024-01-15"), ("note", Value.vstr "x")]) "note" =
      some (Value.vstr "x") := by
  constructor
  · have h := (c6_runner_date_postprocessing
      [⟨"day", EvidenceType.DATE, TypeFidelity.PRECISE⟩,
       ⟨"note", EvidenceType.STRING, TypeFidelity.PRECISE⟩]
      [("day", Value.vstr "2024-01-15"), ("note", Value.vstr "x")]
      ⟨"day", EvidenceType.DATE, TypeFidelity.PRECISE⟩
      (by decide) (by decide)).1 rfl "2024-01-15" rfl
    rw [h]
    decide
  · have h := (c6_runner_date_postprocessing
      [⟨"day", EvidenceType.DATE, TypeFidelity.PRECISE⟩,
       ⟨"note", EvidenceType.STRING, TypeFidelity.PRECISE⟩]
      [("day", Value.vstr "2024-01-15"), ("note", Value.vstr "x")]
      ⟨"note", EvidenceType.STRING, TypeFidelity.PRECISE⟩
      (by decide) (by decide)).2.1 (by decide)
    rw [h]
    decide

/-- C7 (amended): when `AUX_PROFILE` is unset — or set to the empty
string, which JavaScript's `!profile` check treats the same way — the
module throws before any client is constructed, so no query can run;
when it is set to any non-empty string, the single long-lived client
bound to region `us-east-1` and that profile is constructed. -/
theorem c7_initAthenaModule_profile_gate (profile : String) (hp : profile ≠ "") :
    initAthenaModule none =
      .error ⟨"Environment variable AUX_PROFILE is not set."⟩ ∧
    initAthenaModule (some "") =
      .error ⟨"Environment variable AUX_PROFILE is not set."⟩ ∧
    initAthenaModule (some profile) = .ok ⟨"us-east-1", profile⟩ := by
  refine ⟨rfl, rfl, ?_⟩
  simp [initAthenaModule, hp]

/-- Witness for C7 at the non-empty profile "analytics". -/
theorem c7_witness :
    initAthenaModule (some "analytics") = .ok ⟨"us-east-1", "analytics"⟩ :=
  (c7_initAthenaModule_profile_gate "analytics" (by decide)).2.2

/-- Counterexample for C7 as stated: with the environment variable
present but equal to the empty string, the module still throws and no
client is constructed. -/
theorem c7_counterexample :
    initAthenaModule (some "") =
      .error ⟨"Environment variable AUX_PROFILE is not set."⟩ := rfl

/-- C8: errors from submission, polling, pagination and result mapping
reach only the runner's outermost `try`/`catch`, which swallows them:
whenever the try-block ends in an error the runner resolves to
`undefined` (`some none`) instead of rethrowing, and a normal try-block
result is returned as is; in particular a failed submission, a transport
error while polling, a FAILED execution status, and a transport error
while fetching results each make the runner resolve to `undefined`. -/
theorem c8_runner_swallows_errors
    (sendStart : StartParams → Except JsError StartResponse)
    (sendStatus : Nat → Except JsError String)
    (sendResults : Option String → Except JsError GetQueryResultsResponse)
    (options : ConnectorOptions) (queryText : String) (fuel : Nat) :
    (∀ e, runnerTryBlock sendStart sendStatus sendResults options queryText fuel =
        some (.error e) →
      getRunner sendStart sendStatus sendResults options queryText fuel =
        some none) ∧
    (∀ output,
      runnerTryBlock sendStart sendStatus sendResults options queryText fuel =
        some (.ok output) →
      getRunner sendStart sendStatus sendResults options queryText fuel =
        some (some output)) ∧
    (∀ e, sendStart (buildStartParams options queryText) = .error e →
      getRunner sendStart sendStatus sendResults options queryText fuel =
        some none) ∧
    (∀ response e, sendStart (buildStartParams options queryText) = .ok response →
      sendStatus 0 = .error e →
      getRunner sendStart sendStatus sendResults options queryText (fuel + 1) =
        some none) ∧
    (∀ response, sendStart (buildStartParams options queryText) = .ok response →
      sendStatus 0 = .ok "FAILED" →
      getRunner sendStart sendStatus sendResults options queryText (fuel + 1) =
        some none) ∧
    (∀ response e, sendStart (buildStartParams options queryText) = .ok response →
      sendStatus 0 = .ok "SUCCEEDED" → sendResults none = .error e →
      getRunner sendStart sendStatus sendResults options queryText (fuel + 1) =
        some none) := by
  refine ⟨?_, ?_, ?_, ?_, ?_, ?_⟩
  · intro e h
    simp [getRunner, h]
  · intro output h
    simp [getRunner, h]
  · intro e h
    simp [getRunner, runnerTryBlock, h]
  · intro response e h1 h2
    simp [getRunner, runnerTryBlock, h1, waitForQueryCompletion, h2]
  · intro response h1 h2
    simp [getRunner, runnerTryBlock, h1, waitForQueryCompletion, h2]
  · intro response e h1 h2 h3
    simp [getRunner, runnerTryBlock, h1, waitForQueryCompletion, h2,
      getQueryResults, getQueryResultsLoop, h3]

/-- Witness for C8: a rejected submission makes the runner resolve to
`undefined`. -/
theorem c8_witness :
    getRunner (fun _ => .error ⟨"network error"⟩) (fun _ => .ok "SUCCEEDED")
      stubSend ⟨"db", "AWSDataCatalog", "bucket", "t"⟩ "SELECT 1" 1 = some none :=
  (c8_runner_swallows_errors (fun _ => .error ⟨"network error"⟩)
    (fun _ => .ok "SUCCEEDED") stubSend ⟨"db", "AWSDataCatalog", "bucket", "t"⟩
    "SELECT 1" 1).2.2.1 ⟨"network error"⟩ rfl

/-- C9: for every ConnectorOptions value, `testConnection` returns true
unconditionally; its definition consumes no remote operation, so no
remote check of any kind is issued. -/
theorem c9_testConnection_always_true (options : ConnectorOptions) :
    testConnection options = true := rfl

end AthenaConnector
